import Mathlib

/-!
Verification of the WebGPU simulation core: shallow embedding of the
vorticity-stream fluid driver (`NavierStokes.ts`, `navier-stokes.compute.wgsl`),
the stigmergic agent kernels (`physarum-agents.compute.wgsl`,
`physarum-diffuse.compute.wgsl`, `BrushStroke.ts`), the D3Q19 lattice
Boltzmann flame kernel (`flame.lbm.wgsl`, `d3q19.wgsl`, `FlameSimulation`),
and the generic lifecycle driver (`WebGPUSimulation.ts`, `utils.ts`).

Conventions: WGSL/JS floating point numbers are modelled as exact rationals
where the code is ring arithmetic, and as real numbers where the code uses
`sqrt`, `exp`, `cos`, `sin` or `fract`.  GPU dispatches are modelled
sequentially (a dispatch is a function from the pre-dispatch buffer contents
to the post-dispatch contents); buffers are total functions from coordinates
to cell values.
-/

set_option maxHeartbeats 1000000

namespace Spec2Proof

/-! ## Navier-Stokes dispatch geometry (`NavierStokes.ts` + `navier-stokes.compute.wgsl`)

`NavierStokes.ts` defines `WG = 8`, `TILE = 2`, `HALO = 1`,
`INNER = TILE * WG - 2 * HALO = 14` and `NavierStokes.frame` dispatches
`ceil(gw / INNER) × ceil(gh / INNER)` workgroups of the compute pipeline.
The shader entry point `main` in `navier-stokes.compute.wgsl` is declared
`@workgroup_size(8, 8)`; each invocation takes its own
`global_invocation_id` as the cell coordinate, returns if that coordinate
is out of bounds, and otherwise writes exactly the cell at that coordinate.
-/

namespace NS

def WG : ℕ := 8
def TILE : ℕ := 2
def HALO : ℕ := 1
def INNER : ℕ := TILE * WG - 2 * HALO

/-- `Math.ceil(extent / INNER)`: the number of workgroups dispatched per axis
by `NavierStokes.frame`. -/
def dispatchGroups (extent : ℕ) : ℕ := (extent + (INNER - 1)) / INNER

/-- The set of global invocation ids that exist in one dispatch along one
axis: `dispatchGroups extent` workgroups of `WG` invocations each. -/
def invocationExists (extent gid : ℕ) : Prop := gid < WG * dispatchGroups extent

instance (extent gid : ℕ) : Decidable (invocationExists extent gid) := by
  unfold invocationExists; infer_instance

/-- `main` of `navier-stokes.compute.wgsl`: the cell `(x, y)` of a `w × h`
grid is written by the dispatch iff the invocation with global id `(x, y)`
exists (each invocation writes only `state[idx(x, size)]` for its own id)
and the bounds check `x.x >= size.x || x.y >= size.y` does not return early. -/
def cellWritten (w h x y : ℕ) : Prop :=
  invocationExists w x ∧ invocationExists h y ∧ x < w ∧ y < h

instance (w h x y : ℕ) : Decidable (cellWritten w h x y) := by
  unfold cellWritten; infer_instance

end NS

/-- **C1** [code_bug evidence].  The claim states that each fluid compute
dispatch (`ceil(w/14) × ceil(h/14)` workgroups of size `8 × 8`) writes every
cell of the state buffer.  The code does not: the shader maps one invocation
to one cell via `global_invocation_id`, so a dispatch covers only
`8 * ceil(w/14)` cells per axis.  On a `9 × 8` grid the dispatch is a single
workgroup and the in-bounds cell `(8, 0)` is written by no invocation:
`8 < 9` and `0 < 8` (the cell is in bounds) yet it is not written, and the
dispatch covers only the 8 cells `x = 0..7` of the 9-cell row. -/
theorem c1_fluid_dispatch_drops_cells :
    8 < 9 ∧ 0 < 8 ∧ ¬ NS.cellWritten 9 8 8 0 ∧
      NS.dispatchGroups 9 = 1 ∧ NS.WG * NS.dispatchGroups 9 = 8 := by
  refine ⟨by decide, by decide, ?_, by decide, by decide⟩
  decide

/-! ## Trail-diffusion dispatch tiling (`physarum-diffuse.compute.wgsl` + `BrushStroke.ts`)

`physarum-diffuse.compute.wgsl` declares `WG = 8`, `TILE = 2`, `HALO = 1`,
`CACHE = TILE * WG = 16`, `INNER = CACHE - 2*HALO = 14` and
`@workgroup_size(WG, WG)`.  Each thread loads a `TILE × TILE` block of the
cache at local index `li = lid * TILE + (tx, ty)` and, in the write phase,
stores to global cell `gi = origin + li` with `origin = wid * INNER - HALO`,
skipping halo cells (`li.x < HALO || li.x >= CACHE - HALO`, same for `y`)
and out-of-bounds cells.  `BrushStroke.renderNPR` dispatches
`ceil(gw / DIFFUSE_INNER) × ceil(gh / DIFFUSE_INNER)` workgroups with
`DIFFUSE_INNER = 14`. -/

namespace Diffuse

def WG : ℕ := 8
def TILE : ℕ := 2
def HALO : ℕ := 1
def CACHE : ℕ := TILE * WG
def INNER : ℕ := CACHE - 2 * HALO

/-- `Math.ceil(extent / DIFFUSE_INNER)` in `BrushStroke.renderNPR`. -/
def dispatchGroups (extent : ℕ) : ℕ := (extent + (INNER - 1)) / INNER

/-- The write phase of `diffuse`: workgroup `(gx, gy)` writes global cell
`(cx, cy)` iff some thread `(lx, ly)` on some tile iteration `(tx, ty)`
reaches the `textureStore` for that cell: the local index is not in the
halo, the global index is `origin + li`, and the bounds check passes. -/
def groupWritesCell (w h gx gy : ℕ) (cx cy : ℤ) : Prop :=
  ∃ lx ly tx ty : ℕ,
    (lx < WG ∧ ly < WG ∧ tx < TILE ∧ ty < TILE) ∧
    ¬ (lx * TILE + tx < HALO ∨ lx * TILE + tx ≥ CACHE - HALO ∨
       ly * TILE + ty < HALO ∨ ly * TILE + ty ≥ CACHE - HALO) ∧
    cx = (gx * INNER : ℤ) - (HALO : ℤ) + ((lx * TILE + tx : ℕ) : ℤ) ∧
    cy = (gy * INNER : ℤ) - (HALO : ℤ) + ((ly * TILE + ty : ℕ) : ℤ) ∧
    ¬ (cx < 0 ∨ cy < 0 ∨ cx ≥ (w : ℤ) ∨ cy ≥ (h : ℤ))

/-- The cells written by workgroup `(gx, gy)` are exactly the in-bounds
cells of the square `[gx*INNER, gx*INNER + INNER) × [gy*INNER, gy*INNER + INNER)`:
the group's inner (non-halo) region. -/
theorem groupWritesCell_iff (w h gx gy : ℕ) (cx cy : ℤ) :
    groupWritesCell w h gx gy cx cy ↔
      ((gx * INNER : ℤ) ≤ cx ∧ cx < (gx * INNER : ℤ) + (INNER : ℤ) ∧
       (gy * INNER : ℤ) ≤ cy ∧ cy < (gy * INNER : ℤ) + (INNER : ℤ) ∧
       0 ≤ cx ∧ cx < (w : ℤ) ∧ 0 ≤ cy ∧ cy < (h : ℤ)) := by
  constructor
  · rintro ⟨lx, ly, tx, ty, ⟨hlx, hly, htx, hty⟩, hhalo, hcx, hcy, hbound⟩
    simp only [WG, TILE, HALO, CACHE, INNER] at *
    omega
  · rintro ⟨h1, h2, h3, h4, h5, h6, h7, h8⟩
    unfold groupWritesCell
    simp only [INNER, CACHE, TILE, HALO, WG] at *
    refine ⟨(cx + 1 - (gx * 14 : ℤ)).toNat / 2, (cy + 1 - (gy * 14 : ℤ)).toNat / 2,
            (cx + 1 - (gx * 14 : ℤ)).toNat % 2, (cy + 1 - (gy * 14 : ℤ)).toNat % 2,
            ⟨?_, ?_, ?_, ?_⟩, ?_, ?_, ?_, ?_⟩ <;> omega

end Diffuse

/-- **C4** [confirmed].  For every pair of positive grid dimensions, the
inner (non-halo) regions of the `ceil(w/14) × ceil(h/14)` dispatched
workgroups of the trail-diffusion pass exactly tile the `w × h` grid:
every in-bounds cell is written by exactly one dispatched workgroup
(no gaps, no overlaps). -/
theorem c4_diffuse_inner_regions_tile (w h : ℕ) (hw : 0 < w) (hh : 0 < h)
    (cx cy : ℤ) (hcx : 0 ≤ cx ∧ cx < (w : ℤ)) (hcy : 0 ≤ cy ∧ cy < (h : ℤ)) :
    ∃! g : ℕ × ℕ,
      (g.1 < Diffuse.dispatchGroups w ∧ g.2 < Diffuse.dispatchGroups h) ∧
        Diffuse.groupWritesCell w h g.1 g.2 cx cy := by
  refine ⟨(cx.toNat / Diffuse.INNER, cy.toNat / Diffuse.INNER), ⟨⟨?_, ?_⟩, ?_⟩, ?_⟩
  · simp only [Diffuse.dispatchGroups, Diffuse.INNER, Diffuse.CACHE, Diffuse.TILE,
      Diffuse.HALO, Diffuse.WG]
    omega
  · simp only [Diffuse.dispatchGroups, Diffuse.INNER, Diffuse.CACHE, Diffuse.TILE,
      Diffuse.HALO, Diffuse.WG]
    omega
  · rw [Diffuse.groupWritesCell_iff]
    simp only [Diffuse.INNER, Diffuse.CACHE, Diffuse.TILE, Diffuse.HALO, Diffuse.WG]
    omega
  · rintro ⟨gx, gy⟩ ⟨-, hwrite⟩
    rw [Diffuse.groupWritesCell_iff] at hwrite
    simp only [Diffuse.INNER, Diffuse.CACHE, Diffuse.TILE, Diffuse.HALO, Diffuse.WG] at hwrite
    simp only [Diffuse.INNER, Diffuse.CACHE, Diffuse.TILE, Diffuse.HALO, Diffuse.WG,
      Prod.mk.injEq]
    omega

/-- Witness for C4: on a `20 × 15` grid, cell `(16, 3)` is written by
exactly one dispatched workgroup (namely `(1, 0)`). -/
theorem c4_diffuse_inner_regions_tile_witness :
    ∃! g : ℕ × ℕ,
      (g.1 < Diffuse.dispatchGroups 20 ∧ g.2 < Diffuse.dispatchGroups 15) ∧
        Diffuse.groupWritesCell 20 15 g.1 g.2 16 3 :=
  c4_diffuse_inner_regions_tile 20 15 (by decide) (by decide) 16 3
    (by constructor <;> decide) (by constructor <;> decide)

/-! ## Agent movement and boundary wrap (`physarum-agents.compute.wgsl`)

In `agents_step`, after the turn decision produced the updated heading `h`,
the agent moves by `np = pos + vec2f(cos(h), sin(h)) * params.speed`, wraps
with `np = fract(np / sz) * sz`, and stores `agents[idx] = vec4f(np, h, 0.0)`.
WGSL `fract(x) = x - floor(x)` is `Int.fract`. -/

namespace Agents

/-- `np = pos + vec2f(cos(h), sin(h)) * params.speed`. -/
noncomputable def move (pos : ℝ × ℝ) (h speed : ℝ) : ℝ × ℝ :=
  (pos.1 + Real.cos h * speed, pos.2 + Real.sin h * speed)

/-- `np = fract(np / sz) * sz` (componentwise). -/
noncomputable def wrap (np sz : ℝ × ℝ) : ℝ × ℝ :=
  (Int.fract (np.1 / sz.1) * sz.1, Int.fract (np.2 / sz.2) * sz.2)

/-- The stored position lies in `[0, w) × [0, h)`. -/
def inGrid (p sz : ℝ × ℝ) : Prop :=
  0 ≤ p.1 ∧ p.1 < sz.1 ∧ 0 ≤ p.2 ∧ p.2 < sz.2

theorem wrap_mem_inGrid (np sz : ℝ × ℝ) (hw : 0 < sz.1) (hh : 0 < sz.2) :
    inGrid (wrap np sz) sz := by
  refine ⟨mul_nonneg (Int.fract_nonneg _) hw.le, ?_,
          mul_nonneg (Int.fract_nonneg _) hh.le, ?_⟩
  · calc Int.fract (np.1 / sz.1) * sz.1 < 1 * sz.1 := by
          exact mul_lt_mul_of_pos_right (Int.fract_lt_one _) hw
    _ = sz.1 := one_mul _
  · calc Int.fract (np.2 / sz.2) * sz.2 < 1 * sz.2 := by
          exact mul_lt_mul_of_pos_right (Int.fract_lt_one _) hh
    _ = sz.2 := one_mul _

end Agents

/-- **C7** [confirmed].  For every positive grid size, every in-bounds agent
position, every heading and every speed, the wrapped new position
`fract(np / size) * size` written back to the agent buffer (for an agent
index below the agent count; indices at or above the count return before
writing) lies in `[0, width) × [0, height)`. -/
theorem c7_agent_position_in_grid (pos : ℝ × ℝ) (heading speed : ℝ)
    (sz : ℝ × ℝ) (hw : 0 < sz.1) (hh : 0 < sz.2) (hpos : Agents.inGrid pos sz) :
    Agents.inGrid (Agents.wrap (Agents.move pos heading speed) sz) sz :=
  Agents.wrap_mem_inGrid _ sz hw hh

/-- Witness for C7: an agent at `(1, 1)` of a `2 × 3` grid with heading `0`
and speed `1` ends in bounds. -/
theorem c7_agent_position_in_grid_witness :
    Agents.inGrid
      (Agents.wrap (Agents.move ((1 : ℝ), (1 : ℝ)) 0 1) ((2 : ℝ), (3 : ℝ)))
      ((2 : ℝ), (3 : ℝ)) :=
  c7_agent_position_in_grid (1, 1) 0 1 (2, 3) two_pos (by simp)
    ⟨zero_le_one, by simp [one_lt_two], zero_le_one, by simp⟩

/-! ## Trail deposit / diffusion bound (`physarum-agents.compute.wgsl` +
`physarum-diffuse.compute.wgsl`)

The agent pass deposits
`textureStore(trail, dc, min(cur + params.deposit, 5.0))` at
`dc = clamp(vec2i(np), 0, sz - 1)`.  The diffusion pass stores, at every
in-bounds non-halo cell, `mix(center, blurred, diffuse_weight) * decay`
where `blurred` is the 3×3 cache mean, `decay = mix(params.decay * 0.5,
params.decay, tree)` and `tree = smoothstep(threshold - 0.15,
threshold + 0.15, mask)`.  Trail values are modelled as exact rationals. -/

namespace Trail

/-- WGSL `clamp` on signed integer coordinates. -/
def clampCoord (w h : ℕ) (p : ℤ × ℤ) : ℤ × ℤ :=
  (max 0 (min p.1 ((w : ℤ) - 1)), max 0 (min p.2 ((h : ℤ) - 1)))

/-- WGSL `clamp` on scalars. -/
def clampQ (x lo hi : ℚ) : ℚ := max lo (min x hi)

/-- WGSL `mix(a, b, t) = a + (b - a) * t`. -/
def mixQ (a b t : ℚ) : ℚ := a + (b - a) * t

/-- WGSL `smoothstep(e0, e1, x)`: Hermite interpolation of the clamped
normalized argument. -/
def smoothstep (e0 e1 x : ℚ) : ℚ :=
  (clampQ ((x - e0) / (e1 - e0)) 0 1) * (clampQ ((x - e0) / (e1 - e0)) 0 1) *
    (3 - 2 * clampQ ((x - e0) / (e1 - e0)) 0 1)

/-- The `r32float` trail storage texture, as a total map from integer
coordinates to rationals (only in-bounds cells are ever read or written by
the shaders, via `clampCoord`). -/
def Field : Type := ℤ × ℤ → ℚ

/-- The fields of the physarum `Params` uniform used by these two passes. -/
structure Params where
  sensor_deposit : ℚ
  decay : ℚ
  diffuse_weight : ℚ
  agent_threshold : ℚ

/-- One agent's trail deposit (`physarum-agents.compute.wgsl` lines 168-171):
`dc = clamp(vec2i(np), 0, sz-1); cur = load(dc); store(dc, min(cur + deposit, 5))`. -/
def depositStep (w h : ℕ) (P : Params) (f : Field) (rawPos : ℤ × ℤ) : Field :=
  fun p =>
    if p = clampCoord w h rawPos
    then min (f (clampCoord w h rawPos) + P.sensor_deposit) 5
    else f p

/-- One diffusion dispatch (`physarum-diffuse.compute.wgsl` lines 39-64),
written per cell: every in-bounds cell is written exactly once (theorem
`c4_diffuse_inner_regions_tile`), with all reads taken from the pre-dispatch
field through the workgroup cache (whose loads clamp coordinates into
bounds); out-of-bounds coordinates are not cells of the texture and are left
unchanged. -/
def diffuseStep (w h : ℕ) (P : Params) (mask : ℤ × ℤ → ℚ) (f : Field) : Field :=
  fun p =>
    if 0 ≤ p.1 ∧ p.1 < (w : ℤ) ∧ 0 ≤ p.2 ∧ p.2 < (h : ℤ) then
      let tileAt : ℤ × ℤ → ℚ := fun d => f (clampCoord w h (p.1 + d.1, p.2 + d.2))
      let sum := tileAt (-1, -1) + tileAt (0, -1) + tileAt (1, -1) +
                 tileAt (-1, 0) + tileAt (0, 0) + tileAt (1, 0) +
                 tileAt (-1, 1) + tileAt (0, 1) + tileAt (1, 1)
      let blurred := sum / 9
      let center := tileAt (0, 0)
      let diffused := mixQ center blurred P.diffuse_weight
      let tree := smoothstep (P.agent_threshold - 0.15) (P.agent_threshold + 0.15) (mask p)
      let decayF := mixQ (P.decay * 0.5) P.decay tree
      diffused * decayF
    else f p

/-- One dispatch of either kind, with the parameter values it was launched
with (`BrushStroke.renderNPR` interleaves agent and diffusion dispatches and
the uniform may change between them). -/
inductive Op where
  | deposit (rawPos : ℤ × ℤ) (P : Params)
  | diffuse (P : Params) (mask : ℤ × ℤ → ℚ)

def applyOp (w h : ℕ) (f : Field) : Op → Field
  | .deposit rawPos P => depositStep w h P f rawPos
  | .diffuse P mask => diffuseStep w h P mask f

/-- The trail field after a sequence of dispatches, starting from the
all-zero field. -/
def run (w h : ℕ) (ops : List Op) : Field :=
  ops.foldl (applyOp w h) (fun _ => 0)

/-- The hypotheses of the claim: nonnegative deposit amount; decay factor
at most 1 (and nonnegative); diffuse weight in `[0, 1]`. -/
def OpOK : Op → Prop
  | .deposit _ P => 0 ≤ P.sensor_deposit
  | .diffuse P _ => 0 ≤ P.decay ∧ P.decay ≤ 1 ∧ 0 ≤ P.diffuse_weight ∧ P.diffuse_weight ≤ 1

def Bounded (f : Field) : Prop := ∀ p, f p ≤ 5

theorem clampQ_mem (x lo hi : ℚ) (h : lo ≤ hi) :
    lo ≤ clampQ x lo hi ∧ clampQ x lo hi ≤ hi :=
  ⟨le_max_left _ _, max_le h (min_le_right _ _)⟩

theorem smoothstep_mem (e0 e1 x : ℚ) :
    0 ≤ smoothstep e0 e1 x ∧ smoothstep e0 e1 x ≤ 1 := by
  obtain ⟨h0, h1⟩ := clampQ_mem ((x - e0) / (e1 - e0)) 0 1 zero_le_one
  unfold smoothstep
  set t := clampQ ((x - e0) / (e1 - e0)) 0 1 with ht
  constructor
  · have : (0 : ℚ) ≤ 3 - 2 * t := by linarith
    positivity
  · nlinarith [mul_nonneg (mul_nonneg (sub_nonneg.2 h1) (sub_nonneg.2 h1)) h0,
      sq_nonneg (1 - t)]

theorem mixQ_le (a b t c : ℚ) (ht0 : 0 ≤ t) (ht1 : t ≤ 1) (ha : a ≤ c) (hb : b ≤ c) :
    mixQ a b t ≤ c := by
  have h1 : 0 ≤ (c - a) * (1 - t) := mul_nonneg (by linarith) (by linarith)
  have h2 : 0 ≤ (c - b) * t := mul_nonneg (by linarith) ht0
  unfold mixQ; nlinarith [h1, h2]

theorem mul_le_five (x k : ℚ) (hx : x ≤ 5) (hk0 : 0 ≤ k) (hk1 : k ≤ 1) :
    x * k ≤ 5 := by
  rcases le_or_lt 0 x with hx0 | hx0
  · calc x * k ≤ x * 1 := mul_le_mul_of_nonneg_left hk1 hx0
    _ = x := mul_one x
    _ ≤ 5 := hx
  · have : x * k ≤ 0 := mul_nonpos_of_nonpos_of_nonneg hx0.le hk0
    linarith

/-- A single deposit never raises a trail cell above 5: the stored value is
`min(cur + deposit, 5)` at the deposited cell and unchanged elsewhere. -/
theorem depositStep_le_max (w h : ℕ) (P : Params) (f : Field) (rawPos p : ℤ × ℤ) :
    depositStep w h P f rawPos p ≤ max (f p) 5 := by
  unfold depositStep
  split
  · exact le_max_of_le_right (min_le_right _ _)
  · exact le_max_left _ _

theorem depositStep_bounded (w h : ℕ) (P : Params) (f : Field) (rawPos : ℤ × ℤ)
    (hf : Bounded f) : Bounded (depositStep w h P f rawPos) := by
  intro p
  unfold depositStep
  split
  · exact min_le_right _ _
  · exact hf p

theorem diffuseStep_bounded (w h : ℕ) (P : Params) (mask : ℤ × ℤ → ℚ) (f : Field)
    (hP : 0 ≤ P.decay ∧ P.decay ≤ 1 ∧ 0 ≤ P.diffuse_weight ∧ P.diffuse_weight ≤ 1)
    (hf : Bounded f) : Bounded (diffuseStep w h P mask f) := by
  obtain ⟨hd0, hd1, hw0, hw1⟩ := hP
  intro p
  unfold diffuseStep
  split
  · have htree := smoothstep_mem (P.agent_threshold - 0.15) (P.agent_threshold + 0.15)
      (mask p)
    have hdecay0 : 0 ≤ mixQ (P.decay * 0.5) P.decay
        (smoothstep (P.agent_threshold - 0.15) (P.agent_threshold + 0.15) (mask p)) := by
      unfold mixQ; nlinarith [htree.1, htree.2]
    have hdecay1 : mixQ (P.decay * 0.5) P.decay
        (smoothstep (P.agent_threshold - 0.15) (P.agent_threshold + 0.15) (mask p)) ≤ 1 := by
      unfold mixQ; nlinarith [htree.1, htree.2]
    have hsum : (f (clampCoord w h (p.1 + -1, p.2 + -1)) + f (clampCoord w h (p.1 + 0, p.2 + -1)) +
        f (clampCoord w h (p.1 + 1, p.2 + -1)) + f (clampCoord w h (p.1 + -1, p.2 + 0)) +
        f (clampCoord w h (p.1 + 0, p.2 + 0)) + f (clampCoord w h (p.1 + 1, p.2 + 0)) +
        f (clampCoord w h (p.1 + -1, p.2 + 1)) + f (clampCoord w h (p.1 + 0, p.2 + 1)) +
        f (clampCoord w h (p.1 + 1, p.2 + 1))) / 9 ≤ 5 := by
      have h1 := hf (clampCoord w h (p.1 + -1, p.2 + -1))
      have h2 := hf (clampCoord w h (p.1 + 0, p.2 + -1))
      have h3 := hf (clampCoord w h (p.1 + 1, p.2 + -1))
      have h4 := hf (clampCoord w h (p.1 + -1, p.2 + 0))
      have h5 := hf (clampCoord w h (p.1 + 0, p.2 + 0))
      have h6 := hf (clampCoord w h (p.1 + 1, p.2 + 0))
      have h7 := hf (clampCoord w h (p.1 + -1, p.2 + 1))
      have h8 := hf (clampCoord w h (p.1 + 0, p.2 + 1))
      have h9 := hf (clampCoord w h (p.1 + 1, p.2 + 1))
      linarith
    have hcenter : f (clampCoord w h (p.1 + 0, p.2 + 0)) ≤ 5 := hf _
    exact mul_le_five _ _ (mixQ_le _ _ _ _ hw0 hw1 hcenter hsum) hdecay0 hdecay1
  · exact hf p

theorem run_bounded (w h : ℕ) (ops : List Op) (hok : ∀ op ∈ ops, OpOK op)
    (f : Field) (hf : Bounded f) : Bounded (ops.foldl (applyOp w h) f) := by
  induction ops generalizing f with
  | nil => exact hf
  | cons o t ih =>
    refine ih (fun op hop => hok op (List.mem_cons_of_mem o hop)) _ ?_
    have hO := hok o (List.mem_cons_self o t)
    cases o with
    | deposit rawPos P => exact depositStep_bounded w h P f rawPos hf
    | diffuse P mask => exact diffuseStep_bounded w h P mask f hO hf

end Trail

/-- **C10** [confirmed].  A single deposit stores `min(cur + deposit, 5)`
and never raises a trail cell above 5; and, starting from the all-zero
trail field, for every interleaving of agent-deposit and diffusion-decay
dispatches whose deposit amounts are nonnegative, decay factors at most 1
and diffuse weights in `[0, 1]`, every trail cell stays at most 5. -/
theorem c10_trail_bounded (w h : ℕ) (ops : List Trail.Op)
    (hok : ∀ op ∈ ops, Trail.OpOK op) :
    (∀ (P : Trail.Params) (f : Trail.Field) (rawPos p : ℤ × ℤ),
        Trail.depositStep w h P f rawPos p ≤ max (f p) 5) ∧
      ∀ p, Trail.run w h ops p ≤ 5 :=
  ⟨fun P f rawPos p => Trail.depositStep_le_max w h P f rawPos p,
   Trail.run_bounded w h ops hok (fun _ => 0) (fun _ => by norm_num)⟩

/-- Witness for C10: a deposit of amount 1 at raw position `(0, 0)` followed
by a diffusion dispatch with decay 1, diffuse weight 1/2 and zero mask, on a
`4 × 4` grid, keeps every cell at most 5. -/
theorem c10_trail_bounded_witness :
    (∀ (P : Trail.Params) (f : Trail.Field) (rawPos p : ℤ × ℤ),
        Trail.depositStep 4 4 P f rawPos p ≤ max (f p) 5) ∧
      ∀ p, Trail.run 4 4
        [Trail.Op.deposit (0, 0) ⟨1, 1, 1/2, 1/2⟩,
         Trail.Op.diffuse ⟨1, 1, 1/2, 1/2⟩ (fun _ => 0)] p ≤ 5 :=
  c10_trail_bounded 4 4
    [Trail.Op.deposit (0, 0) ⟨1, 1, 1/2, 1/2⟩,
     Trail.Op.diffuse ⟨1, 1, 1/2, 1/2⟩ (fun _ => 0)]
    (by
      intro op hop
      simp only [List.mem_cons, List.mem_singleton, List.not_mem_nil, or_false] at hop
      rcases hop with h | h <;> subst h <;> simp [Trail.OpOK] <;> norm_num)

/-! ## Corner readback self-healing (`NavierStokes.frame` + `NavierStokes.resetState`)

`NavierStokes.frame` copies the four corner cells (16 bytes each) of the
state buffer into `readbackBuf` and, when the mapping resolves, computes
`allNaN = isNaN(data[3]) && isNaN(data[7]) && isNaN(data[11]) && isNaN(data[15])`
(the `w` = vorticity channel of each corner) and calls `resetState()` iff
`allNaN`.  A read-back f32 is modelled by its IEEE class: a finite rational,
a NaN, or a signed infinity. -/

namespace Readback

/-- The IEEE-754 class of a read-back f32 value. -/
inductive FVal where
  | finite (x : ℚ)
  | nan
  | posInf
  | negInf

/-- JS `isNaN` on such a value. -/
def isNaN : FVal → Bool
  | .nan => true
  | _ => false

/-- IEEE finiteness (`Number.isFinite`): neither NaN nor an infinity. -/
def isFinite : FVal → Bool
  | .finite _ => true
  | _ => false

/-- "non-finite" in the words of the spec. -/
def nonFinite (v : FVal) : Bool := ! isFinite v

/-- A cell of the state buffer: channels `x`=error, `y`=unused,
`z`=stream function, `w`=vorticity. -/
structure Cell4 where
  err : ℝ
  unused : ℝ
  stream : ℝ
  vort : ℝ

/-- The state buffer (a `gw * gh`-cell buffer; coordinates outside the grid
are not cells and are held at zero). -/
def Fld : Type := ℤ × ℤ → Cell4

/-- The nine Gaussian vorticity blobs of `NavierStokes.resetState`:
`(x, y, a, s)` each. -/
def blobs : List (ℚ × ℚ × ℚ × ℚ) :=
  [(0.22, 0.28, 0.8, 0.05), (0.28, 0.33, -0.8, 0.05),
   (0.55, 0.40, 0.4, 0.10), (0.50, 0.55, -0.4, 0.10),
   (0.72, 0.68, 1.0, 0.03), (0.76, 0.72, -1.0, 0.03),
   (0.82, 0.25, 0.6, 0.07), (0.18, 0.72, -0.5, 0.04),
   (0.30, 0.65, 0.5, 0.04)]

/-- One blob's contribution at cell `(ix, iy)`:
`a * exp(-r2 / (2 * sig * sig))` with `dx = ix - x*gw`, `dy = iy - y*gh`,
`sig = s * min(gw, gh)`. -/
noncomputable def blobTerm (gw gh : ℕ) (ix iy : ℤ) (b : ℚ × ℚ × ℚ × ℚ) : ℝ :=
  ((b.2.2.1 : ℝ)) *
    Real.exp (-(((ix : ℝ) - (b.1 : ℝ) * gw) * ((ix : ℝ) - (b.1 : ℝ) * gw) +
                ((iy : ℝ) - (b.2.1 : ℝ) * gh) * ((iy : ℝ) - (b.2.1 : ℝ) * gh)) /
      (2 * ((b.2.2.2 : ℝ) * min (gw : ℝ) (gh : ℝ)) * ((b.2.2.2 : ℝ) * min (gw : ℝ) (gh : ℝ))))

/-- The accumulated vorticity `w` at cell `(ix, iy)` in `resetState`. -/
noncomputable def blobW (gw gh : ℕ) (ix iy : ℤ) : ℝ :=
  (blobs.map (blobTerm gw gh ix iy)).sum

/-- `resetState`: for each in-bounds cell, channel `x = |w| / (1 + w)` and
channel `w` = the blob sum; channels `y`, `z` zero. -/
noncomputable def resetField (gw gh : ℕ) : Fld := fun p =>
  if 0 ≤ p.1 ∧ p.1 < (gw : ℤ) ∧ 0 ≤ p.2 ∧ p.2 < (gh : ℤ) then
    { err := |blobW gw gh p.1 p.2| / (1 + blobW gw gh p.1 p.2),
      unused := 0, stream := 0, vort := blobW gw gh p.1 p.2 }
  else { err := 0, unused := 0, stream := 0, vort := 0 }

/-- The mapping-resolution handler of the corner readback in
`NavierStokes.frame`: reset the state buffer iff the vorticity channel of
all four corners is NaN; otherwise leave the buffer untouched. -/
noncomputable def onReadback (gw gh : ℕ) (corners : FVal × FVal × FVal × FVal)
    (f : Fld) : Fld :=
  if isNaN corners.1 && isNaN corners.2.1 && isNaN corners.2.2.1 && isNaN corners.2.2.2
  then resetField gw gh
  else f

theorem blobTerm_le (gw gh : ℕ) (ix iy : ℤ) (b : ℚ × ℚ × ℚ × ℚ) :
    blobTerm gw gh ix iy b ≤ ((|b.2.2.1| : ℚ) : ℝ) := by
  unfold blobTerm
  set num : ℝ := ((ix : ℝ) - (b.1 : ℝ) * gw) * ((ix : ℝ) - (b.1 : ℝ) * gw) +
      ((iy : ℝ) - (b.2.1 : ℝ) * gh) * ((iy : ℝ) - (b.2.1 : ℝ) * gh) with hnum
  set sig : ℝ := (b.2.2.2 : ℝ) * min (gw : ℝ) (gh : ℝ) with hsig
  have habs : (b.2.2.1 : ℝ) ≤ ((|b.2.2.1| : ℚ) : ℝ) := by
    push_cast; exact le_abs_self _
  have habs0 : (0 : ℝ) ≤ ((|b.2.2.1| : ℚ) : ℝ) := by
    push_cast; exact abs_nonneg _
  rcases le_or_lt (b.2.2.1 : ℝ) 0 with hb | hb
  · exact le_trans
      (mul_nonpos_of_nonpos_of_nonneg hb (Real.exp_pos (-num / (2 * sig * sig))).le) habs0
  · have hexp : Real.exp (-num / (2 * sig * sig)) ≤ 1 := by
      rw [Real.exp_le_one_iff]
      refine div_nonpos_of_nonpos_of_nonneg (neg_nonpos_of_nonneg ?_) ?_
      · rw [hnum]
        exact add_nonneg (mul_self_nonneg _) (mul_self_nonneg _)
      · nlinarith [mul_self_nonneg sig]
    calc (b.2.2.1 : ℝ) * Real.exp (-num / (2 * sig * sig))
        ≤ (b.2.2.1 : ℝ) * 1 := mul_le_mul_of_nonneg_left hexp hb.le
    _ = (b.2.2.1 : ℝ) := mul_one _
    _ ≤ ((|b.2.2.1| : ℚ) : ℝ) := habs

/-- The blob sum is at most `0.8+0.8+0.4+0.4+1+1+0.6+0.5+0.5 = 6`. -/
theorem blobW_le_six (gw gh : ℕ) (ix iy : ℤ) : blobW gw gh ix iy ≤ 6 := by
  unfold blobW blobs
  simp only [List.map_cons, List.map_nil, List.sum_cons, List.sum_nil, add_zero]
  have h1 := (blobTerm_le gw gh ix iy (0.22, 0.28, 0.8, 0.05)).trans
    (by rw [abs_of_nonneg (by norm_num : (0:ℚ) ≤ 0.8)]; norm_num : ((|(0.8 : ℚ)| : ℚ) : ℝ) ≤ 0.8)
  have h2 := (blobTerm_le gw gh ix iy (0.28, 0.33, -0.8, 0.05)).trans
    (by rw [abs_of_nonpos (by norm_num : (-0.8:ℚ) ≤ 0)]; norm_num : ((|(-0.8 : ℚ)| : ℚ) : ℝ) ≤ 0.8)
  have h3 := (blobTerm_le gw gh ix iy (0.55, 0.40, 0.4, 0.10)).trans
    (by rw [abs_of_nonneg (by norm_num : (0:ℚ) ≤ 0.4)]; norm_num : ((|(0.4 : ℚ)| : ℚ) : ℝ) ≤ 0.4)
  have h4 := (blobTerm_le gw gh ix iy (0.50, 0.55, -0.4, 0.10)).trans
    (by rw [abs_of_nonpos (by norm_num : (-0.4:ℚ) ≤ 0)]; norm_num : ((|(-0.4 : ℚ)| : ℚ) : ℝ) ≤ 0.4)
  have h5 := (blobTerm_le gw gh ix iy (0.72, 0.68, 1.0, 0.03)).trans
    (by rw [abs_of_nonneg (by norm_num : (0:ℚ) ≤ 1.0)]; norm_num : ((|(1.0 : ℚ)| : ℚ) : ℝ) ≤ 1)
  have h6 := (blobTerm_le gw gh ix iy (0.76, 0.72, -1.0, 0.03)).trans
    (by rw [abs_of_nonpos (by norm_num : (-1.0:ℚ) ≤ 0)]; norm_num : ((|(-1.0 : ℚ)| : ℚ) : ℝ) ≤ 1)
  have h7 := (blobTerm_le gw gh ix iy (0.82, 0.25, 0.6, 0.07)).trans
    (by rw [abs_of_nonneg (by norm_num : (0:ℚ) ≤ 0.6)]; norm_num : ((|(0.6 : ℚ)| : ℚ) : ℝ) ≤ 0.6)
  have h8 := (blobTerm_le gw gh ix iy (0.18, 0.72, -0.5, 0.04)).trans
    (by rw [abs_of_nonpos (by norm_num : (-0.5:ℚ) ≤ 0)]; norm_num : ((|(-0.5 : ℚ)| : ℚ) : ℝ) ≤ 0.5)
  have h9 := (blobTerm_le gw gh ix iy (0.30, 0.65, 0.5, 0.04)).trans
    (by rw [abs_of_nonneg (by norm_num : (0:ℚ) ≤ 0.5)]; norm_num : ((|(0.5 : ℚ)| : ℚ) : ℝ) ≤ 0.5)
  linarith

end Readback

/-- **C2 counterexample** [corrected].  The claim says the field is
reinitialized whenever all four read-back corner values are simultaneously
*non-finite*.  False: the handler tests JS `isNaN`, and `+∞` is non-finite
but not NaN.  With all four corners `+∞` on a `1 × 1` grid and a buffer
whose vorticity is 7 everywhere, the handler leaves the buffer unchanged,
and that buffer is not the reset configuration (whose vorticity at `(0,0)`
is at most 6). -/
theorem c2_nonfinite_corners_do_not_reset :
    ¬ ∀ (gw gh : ℕ) (corners : Readback.FVal × Readback.FVal × Readback.FVal × Readback.FVal)
        (f : Readback.Fld),
        (Readback.nonFinite corners.1 = true ∧ Readback.nonFinite corners.2.1 = true ∧
         Readback.nonFinite corners.2.2.1 = true ∧ Readback.nonFinite corners.2.2.2 = true) →
        Readback.onReadback gw gh corners f = Readback.resetField gw gh := by
  intro hclaim
  have h := hclaim 1 1 (.posInf, .posInf, .posInf, .posInf)
    (fun _ => { err := 0, unused := 0, stream := 0, vort := 7 })
    ⟨rfl, rfl, rfl, rfl⟩
  rw [Readback.onReadback] at h
  simp only [Readback.isNaN, Bool.false_and, Bool.and_false, if_neg Bool.false_ne_true] at h
  have h0 := congrFun h ((0 : ℤ), (0 : ℤ))
  have hvort : (7 : ℝ) = Readback.blobW 1 1 0 0 := by
    have := congrArg Readback.Cell4.vort h0
    simpa [Readback.resetField] using this
  have := Readback.blobW_le_six 1 1 0 0
  rw [← hvort] at this
  norm_num at this

/-- **C2** [corrected: "non-finite" amended to "NaN"].  The readback handler
reinitializes the field buffer to the preset multi-vortex configuration of
`resetState` exactly when the vorticity values read back at all four grid
corners are simultaneously NaN; when at least one of them is not NaN (in
particular when at least one corner value is finite), the handler leaves
the field buffer unchanged. -/
theorem c2_reset_iff_all_corners_nan (gw gh : ℕ)
    (corners : Readback.FVal × Readback.FVal × Readback.FVal × Readback.FVal)
    (f : Readback.Fld) :
    ((Readback.isNaN corners.1 ∧ Readback.isNaN corners.2.1 ∧
      Readback.isNaN corners.2.2.1 ∧ Readback.isNaN corners.2.2.2) →
        Readback.onReadback gw gh corners f = Readback.resetField gw gh) ∧
    ((¬ (Readback.isNaN corners.1 ∧ Readback.isNaN corners.2.1 ∧
         Readback.isNaN corners.2.2.1 ∧ Readback.isNaN corners.2.2.2)) →
        Readback.onReadback gw gh corners f = f) := by
  constructor
  · rintro ⟨h1, h2, h3, h4⟩
    rw [Readback.onReadback, if_pos (by rw [h1, h2, h3, h4]; rfl)]
  · intro hnot
    rw [Readback.onReadback, if_neg ?_]
    intro hall
    simp only [Bool.and_eq_true] at hall
    exact hnot ⟨hall.1.1.1, hall.1.1.2, hall.1.2, hall.2⟩

/-! ## Readback guard protocol (`NavierStokes.frame`, `rebuild`, `stop`)

The host-side readback protocol, as a transition system over the driver
state: `pending` is the `nanCheckPending` flag; `live` counts readbacks
issued against the current `readbackBuf` whose mapping promise has not yet
settled; `cancelled` counts readbacks whose buffer was destroyed by
`rebuild()` (their promises will eventually reject) but whose rejection has
not yet been delivered.  Transitions are taken verbatim from the code:

* `frame()` issues a readback (`nanCheckPending = true`, `mapAsync`) only
  when `!nanCheckPending`, otherwise skips;
* the `.then` handler (`resolve`) and the `.catch` handler (`reject`)
  each clear the flag when delivered;
* `rebuild()` destroys `readbackBuf` (cancelling every live readback) and
  assigns `nanCheckPending = false` directly;
* `stop()` only cancels the animation frame and resize timer: it touches
  neither the flag nor any outstanding readback.

Delivery of a settled promise's handler is a separate event that the code
does not order relative to later frames. -/

namespace Guard

/-- Host-visible driver state for the readback protocol. -/
structure St where
  pending : Bool
  live : ℕ
  cancelled : ℕ
  deriving DecidableEq, Repr

/-- The events of the protocol. -/
inductive Ev where
  | frame
  | resolve
  | reject
  | cancelReject
  | rebuild
  | stopLoop
  deriving DecidableEq, Repr

/-- One transition of the readback protocol. -/
inductive Step : Ev → St → St → Prop where
  | frameIssue (s : St) (h : s.pending = false) :
      Step .frame s ⟨true, s.live + 1, s.cancelled⟩
  | frameSkip (s : St) (h : s.pending = true) :
      Step .frame s s
  | resolveLive (s : St) (h : 1 ≤ s.live) :
      Step .resolve s ⟨false, s.live - 1, s.cancelled⟩
  | rejectLive (s : St) (h : 1 ≤ s.live) :
      Step .reject s ⟨false, s.live - 1, s.cancelled⟩
  | cancelRejectDelivered (s : St) (h : 1 ≤ s.cancelled) :
      Step .cancelReject s ⟨false, s.live, s.cancelled - 1⟩
  | rebuildStep (s : St) :
      Step .rebuild s ⟨false, 0, s.cancelled + s.live⟩
  | stopStep (s : St) :
      Step .stopLoop s s

/-- The initial state after `start()`: flag clear, nothing in flight. -/
def init : St := ⟨false, 0, 0⟩

/-- Reachability from `init` along any event sequence. -/
def Reachable (s : St) : Prop :=
  Relation.ReflTransGen (fun a b => ∃ e, Step e a b) init s

end Guard

/-- **C3 counterexample** [corrected].  As stated, the claim says the guard
flag is cleared *only* by the resolution or rejection of the previously
issued mapping promise and that two readbacks can never be simultaneously
in flight.  False: `rebuild()` clears the flag directly while the cancelled
readback is still unresolved, so the very next `frame()` issues a second
readback while the first is still outstanding.  The state with one live and
one cancelled outstanding readback (guard set) is reachable via
`frame; rebuild; frame`. -/
theorem c3_two_readbacks_in_flight :
    ¬ ∀ s : Guard.St, Guard.Reachable s → s.live + s.cancelled ≤ 1 := by
  intro hinv
  have h1 : Guard.Reachable ⟨true, 1, 0⟩ :=
    Relation.ReflTransGen.single ⟨.frame, Guard.Step.frameIssue Guard.init rfl⟩
  have h2 : Guard.Reachable ⟨false, 0, 1⟩ :=
    h1.tail ⟨.rebuild, Guard.Step.rebuildStep ⟨true, 1, 0⟩⟩
  have h3 : Guard.Reachable ⟨true, 1, 1⟩ :=
    h2.tail ⟨.frame, Guard.Step.frameIssue ⟨false, 0, 1⟩ rfl⟩
  have := hinv ⟨true, 1, 1⟩ h3
  simp at this

/-- **C3** [corrected].  What the guard actually enforces, per transition:
a readback is issued only from a state with the guard clear, and issuing
sets the guard (so while the guard is observed, no second readback is
issued); the guard is cleared only by the delivery of a mapping promise's
resolution or rejection (including the rejection of a readback cancelled by
a rebuild) or directly by `rebuild()` itself; and `stop()` leaves the guard
and all outstanding readbacks untouched, so a readback outstanding at
`stop()` is settled later by its own handler. -/
theorem c3_guard_transitions (e : Guard.Ev) (s t : Guard.St)
    (hstep : Guard.Step e s t) :
    (t.live + t.cancelled > s.live + s.cancelled →
        s.pending = false ∧ t.pending = true ∧ e = .frame) ∧
    (s.pending = true → t.pending = false →
        e = .resolve ∨ e = .reject ∨ e = .cancelReject ∨ e = .rebuild) ∧
    (e = .stopLoop → t = s) := by
  cases hstep <;> refine ⟨fun hlt => ?_, fun hp hf => ?_, fun he => ?_⟩ <;>
    first
      | (simp_all; done)
      | (simp_all; omega)
      | omega

/-- Witness for C3: the `stop()` transition from the initial state satisfies
all three clauses. -/
theorem c3_guard_transitions_witness :
    ((Guard.init.live + Guard.init.cancelled > Guard.init.live + Guard.init.cancelled →
        Guard.init.pending = false ∧ Guard.init.pending = true ∧
          Guard.Ev.stopLoop = Guard.Ev.frame) ∧
     (Guard.init.pending = true → Guard.init.pending = false →
        Guard.Ev.stopLoop = Guard.Ev.resolve ∨ Guard.Ev.stopLoop = Guard.Ev.reject ∨
          Guard.Ev.stopLoop = Guard.Ev.cancelReject ∨ Guard.Ev.stopLoop = Guard.Ev.rebuild) ∧
     (Guard.Ev.stopLoop = Guard.Ev.stopLoop → Guard.init = Guard.init)) :=
  c3_guard_transitions Guard.Ev.stopLoop Guard.init Guard.init
    (Guard.Step.stopStep Guard.init)

/-! ## Lifecycle `start()` (`WebGPUSimulation.start` + `utils.initWebGPU`)

`start()` wraps its whole body in `try { ... } catch (e) { return false; }`.
The body calls `resizeCanvas`, awaits `initWebGPU` (which returns `null`
when `navigator.gpu` is absent, `requestAdapter()` resolves `null`, or
`getContext("webgpu")` returns `null`), returns `false` on `null`, then
runs `buildPipelines`, `buildResources`, `onStart`, `renderFrame` and
returns `true`.  Each platform call is modelled by its outcome, recorded in
an environment: a thrown exception is `Except.error`. -/

namespace Lifecycle

/-- An opaque thrown JS exception. -/
inductive Err where
  | exn
  deriving DecidableEq, Repr

/-- Outcomes of the platform calls made by `initWebGPU`. -/
structure InitEnv where
  /-- `navigator.gpu` present? -/
  hasGpu : Bool
  /-- `await navigator.gpu.requestAdapter(...)`: throws, or resolves to
  `null` (`false`) or an adapter (`true`). -/
  adapter : Except Err Bool
  /-- `await adapter.requestDevice(...)`: throws or resolves. -/
  device : Except Err Unit
  /-- `canvas.getContext("webgpu")` non-null? -/
  hasContext : Bool
  /-- `context.configure(...)`: throws or succeeds. -/
  configure : Except Err Unit

/-- Outcomes of the remaining calls made by `start()`. -/
structure StartEnv where
  /-- `resizeCanvas(this.canvas)`. -/
  resize : Except Err Unit
  init : InitEnv
  /-- `this.buildPipelines()` (subclass hook). -/
  buildPipelines : Except Err Unit
  /-- `this.buildResources()` (subclass hook). -/
  buildResources : Except Err Unit
  /-- `this.onStart()` (subclass hook). -/
  onStart : Except Err Unit
  /-- `this.renderFrame()`. -/
  renderFrame : Except Err Unit

/-- Whether a modelled call threw. -/
def threw {A : Type} : Except Err A → Bool
  | .error _ => true
  | .ok _ => false

/-- Whether `requestAdapter` resolved to an adapter. -/
def adapterGranted : Except Err Bool → Bool
  | .ok true => true
  | _ => false

/-- `initWebGPU(canvas)`: `none` models the `null` return (unsupported),
`Except.error` a thrown exception. -/
def initWebGPU (env : InitEnv) : Except Err (Option Unit) := do
  if !env.hasGpu then return none
  let adapterOk ← env.adapter
  if !adapterOk then return none
  let _ ← env.device
  if !env.hasContext then return none
  let _ ← env.configure
  return some ()

/-- The body of `start()` before the `catch`. -/
def startBody (env : StartEnv) : Except Err Bool := do
  let _ ← env.resize
  let gpu ← initWebGPU env.init
  match gpu with
  | none => return false
  | some _ => do
    let _ ← env.buildPipelines
    let _ ← env.buildResources
    let _ ← env.onStart
    let _ ← env.renderFrame
    return true

/-- `start()`: the body with `catch (e) { return false; }`. -/
def start (env : StartEnv) : Except Err Bool :=
  match startBody env with
  | .ok b => .ok b
  | .error _ => .ok false

/-- The platform is supported (spec §7: `navigator.gpu` present, an
adapter granted, a WebGPU canvas context available).  Stated from the
spec's words, for comparison with `start`. -/
def specSupported (env : StartEnv) : Bool :=
  env.init.hasGpu && adapterGranted env.init.adapter && env.init.hasContext

/-- No initialization step raised an exception.  Stated from the spec's
words, for comparison with `start`. -/
def specNoThrow (env : StartEnv) : Bool :=
  !threw env.resize && !threw env.init.adapter && !threw env.init.device &&
    !threw env.init.configure && !threw env.buildPipelines &&
    !threw env.buildResources && !threw env.onStart && !threw env.renderFrame

end Lifecycle

/-- **C9** [confirmed].  For every environment, `start()` never throws, and
it returns `true` exactly when the platform is supported (gpu, adapter and
context all available) and no initialization step raised; in every other
case it returns `false`. -/
theorem c9_start_never_throws (env : Lifecycle.StartEnv) :
    Lifecycle.start env =
      .ok (Lifecycle.specSupported env && Lifecycle.specNoThrow env) := by
  rcases env with ⟨resz, ⟨hasGpu, adapter, device, hasContext, configure⟩, bp, br, os, rf⟩
  cases hasGpu <;> cases hasContext <;>
    rcases resz with e | ⟨⟩ <;>
    rcases adapter with e | (_ | _) <;>
    rcases device with e | ⟨⟩ <;>
    rcases configure with e | ⟨⟩ <;>
    rcases bp with e | ⟨⟩ <;>
    rcases br with e | ⟨⟩ <;>
    rcases os with e | ⟨⟩ <;>
    rcases rf with e | ⟨⟩ <;>
    rfl

/-! ## Flame resize resource lifecycle (`FlameSimulation.buildResources` /
`destroyResources`, `WebGPUSimulation.rebuild`)

`buildResources` allocates the four simulation buffers (`distBuf`,
`macroBuf`, `tempBuf`, `simParamsBuf`), the three compute bind groups, and
submits the init dispatch only when `firstBuild = !this.distBuf`; on every
build it destroys the old `renderParamsBuf` and creates a fresh render
uniform buffer and render bind group.  `destroyResources` destroys and
nulls only `renderParamsBuf`.  A resize `rebuild()` runs `destroyResources`
then `buildResources`.  GPU objects are modelled by allocation identities
drawn from a counter, so "not destroyed or reallocated" is "the same
identity". -/

namespace Flame

/-- The GPU resources held by a `FlameSimulation`, each as `some id` when
allocated.  `initDispatches` counts submissions of the init pipeline (the
reinitializations of the volumetric state); `nextId` is the allocator. -/
structure Resources where
  distBuf : Option ℕ
  macroBuf : Option ℕ
  tempBuf : Option ℕ
  simParamsBuf : Option ℕ
  renderParamsBuf : Option ℕ
  initBG : Option ℕ
  lbmBG : Option ℕ
  tempBG : Option ℕ
  renderBG : Option ℕ
  initDispatches : ℕ
  nextId : ℕ
  deriving DecidableEq, Repr

/-- `FlameSimulation.buildResources`. -/
def buildResources (st : Resources) : Resources :=
  let st1 :=
    if st.distBuf = none then
      { st with
        distBuf := some st.nextId
        macroBuf := some (st.nextId + 1)
        tempBuf := some (st.nextId + 2)
        simParamsBuf := some (st.nextId + 3)
        initBG := some (st.nextId + 4)
        lbmBG := some (st.nextId + 5)
        tempBG := some (st.nextId + 6)
        initDispatches := st.initDispatches + 1
        nextId := st.nextId + 7 }
    else st
  { st1 with
    renderParamsBuf := some st1.nextId
    renderBG := some (st1.nextId + 1)
    nextId := st1.nextId + 2 }

/-- `FlameSimulation.destroyResources`: only the render uniform buffer is
destroyed; the simulation buffers persist. -/
def destroyResources (st : Resources) : Resources :=
  { st with renderParamsBuf := none }

/-- `WebGPUSimulation.rebuild` (resize path): `destroyResources()` then
`buildResources()`. -/
def rebuild (st : Resources) : Resources :=
  buildResources (destroyResources st)

end Flame

/-- **C8** [confirmed].  On a resize rebuild of the flame kernel with the
simulation buffers already allocated, the volumetric state is preserved:
the distribution, macroscopic-field, temperature and simulation-parameter
buffers keep their identities (neither destroyed, reallocated nor
reinitialized — no init dispatch is submitted), while the render-parameter
buffer is destroyed (`destroyResources` nulls it) and rebuilt with a fresh
identity, together with the render bind group. -/
theorem c8_flame_resize_preserves_sim_buffers (st : Flame.Resources)
    (halloc : st.distBuf.isSome) :
    (Flame.rebuild st).distBuf = st.distBuf ∧
    (Flame.rebuild st).macroBuf = st.macroBuf ∧
    (Flame.rebuild st).tempBuf = st.tempBuf ∧
    (Flame.rebuild st).simParamsBuf = st.simParamsBuf ∧
    (Flame.rebuild st).initDispatches = st.initDispatches ∧
    (Flame.destroyResources st).renderParamsBuf = none ∧
    (Flame.rebuild st).renderParamsBuf = some st.nextId ∧
    (Flame.rebuild st).renderBG = some (st.nextId + 1) := by
  have hne : st.distBuf ≠ none := by
    cases hd : st.distBuf with
    | none => rw [hd] at halloc; exact absurd halloc (by simp)
    | some v => simp
  unfold Flame.rebuild Flame.buildResources Flame.destroyResources
  simp [hne]

/-- Witness for C8: a concrete post-start resource state is preserved by a
resize rebuild. -/
theorem c8_flame_resize_preserves_sim_buffers_witness :
    ((Flame.rebuild ⟨some 0, some 1, some 2, some 3, some 7, some 4, some 5,
        some 6, some 8, 1, 9⟩).distBuf = some 0 ∧
     (Flame.rebuild ⟨some 0, some 1, some 2, some 3, some 7, some 4, some 5,
        some 6, some 8, 1, 9⟩).macroBuf = some 1 ∧
     (Flame.rebuild ⟨some 0, some 1, some 2, some 3, some 7, some 4, some 5,
        some 6, some 8, 1, 9⟩).tempBuf = some 2 ∧
     (Flame.rebuild ⟨some 0, some 1, some 2, some 3, some 7, some 4, some 5,
        some 6, some 8, 1, 9⟩).simParamsBuf = some 3 ∧
     (Flame.rebuild ⟨some 0, some 1, some 2, some 3, some 7, some 4, some 5,
        some 6, some 8, 1, 9⟩).initDispatches = 1 ∧
     (Flame.destroyResources ⟨some 0, some 1, some 2, some 3, some 7, some 4, some 5,
        some 6, some 8, 1, 9⟩).renderParamsBuf = none ∧
     (Flame.rebuild ⟨some 0, some 1, some 2, some 3, some 7, some 4, some 5,
        some 6, some 8, 1, 9⟩).renderParamsBuf = some 9 ∧
     (Flame.rebuild ⟨some 0, some 1, some 2, some 3, some 7, some 4, some 5,
        some 6, some 8, 1, 9⟩).renderBG = some (9 + 1)) :=
  c8_flame_resize_preserves_sim_buffers
    ⟨some 0, some 1, some 2, some 3, some 7, some 4, some 5, some 6, some 8, 1, 9⟩
    (by decide)

/-! ## D3Q19 lattice Boltzmann step (`flame.lbm.wgsl` + `d3q19.wgsl`)

The fused streaming + collision kernel, per cell of the `n³` toroidal grid:
pull each of the 19 populations from `(x - E[q]) mod n`, form density
`rho = Σ f[q]` and velocity `Σ f[q]·E[q] / max(rho, 0.001)`, add buoyancy
`vel.y += buoyancy * temp`, clamp `|vel|` to 0.15, then BGK-relax each
population toward `equilibrium(q, rho, vel)` with relaxation time `tau`.
Cells are `(ZMod n)³` so the toroidal wrap `(id - E[q] + n) % n` is torus
subtraction; the dispatch is modelled as a function of the pre-step state
(the in-place races the code accepts are outside this sequential model). -/

namespace LBM

/-- The 19 lattice velocity vectors of `d3q19.wgsl`. -/
def E : Fin 19 → ℤ × ℤ × ℤ :=
  ![(0, 0, 0),
    (1, 0, 0), (-1, 0, 0), (0, 1, 0), (0, -1, 0), (0, 0, 1), (0, 0, -1),
    (1, 1, 0), (-1, 1, 0), (1, -1, 0), (-1, -1, 0),
    (1, 0, 1), (-1, 0, 1), (1, 0, -1), (-1, 0, -1),
    (0, 1, 1), (0, -1, 1), (0, 1, -1), (0, -1, -1)]

/-- The lattice weights of `d3q19.wgsl`. -/
def W : Fin 19 → ℚ :=
  ![1/3,
    1/18, 1/18, 1/18, 1/18, 1/18, 1/18,
    1/36, 1/36, 1/36, 1/36, 1/36, 1/36, 1/36, 1/36, 1/36, 1/36, 1/36, 1/36]

def INV_CS2 : ℚ := 3
def INV_2CS4 : ℚ := 4.5
def INV_2CS2 : ℚ := 1.5

/-- `equilibrium(q, rho, u)` of `d3q19.wgsl`:
`rho * W[q] * (1 + 3 e·u + 4.5 (e·u)² - 1.5 u·u)`. -/
noncomputable def equilibrium (q : Fin 19) (rho : ℝ) (u : ℝ × ℝ × ℝ) : ℝ :=
  rho * ((W q : ℚ) : ℝ) *
    (1 + ((INV_CS2 : ℚ) : ℝ) * (((E q).1 : ℝ) * u.1 + ((E q).2.1 : ℝ) * u.2.1 +
            ((E q).2.2 : ℝ) * u.2.2) +
      ((INV_2CS4 : ℚ) : ℝ) * (((E q).1 : ℝ) * u.1 + ((E q).2.1 : ℝ) * u.2.1 +
            ((E q).2.2 : ℝ) * u.2.2) *
          (((E q).1 : ℝ) * u.1 + ((E q).2.1 : ℝ) * u.2.1 + ((E q).2.2 : ℝ) * u.2.2) -
      ((INV_2CS2 : ℚ) : ℝ) * (u.1 * u.1 + u.2.1 * u.2.1 + u.2.2 * u.2.2))

/-- A cell of the `n³` toroidal grid. -/
abbrev Cell (n : ℕ) : Type := ZMod n × ZMod n × ZMod n

/-- The distribution buffer: 19 populations per cell. -/
def DistState (n : ℕ) : Type := Fin 19 → Cell n → ℝ

/-- `E[q]` wrapped onto the torus. -/
def eCell (n : ℕ) (q : Fin 19) : Cell n :=
  (((E q).1 : ZMod n), ((E q).2.1 : ZMod n), ((E q).2.2 : ZMod n))

/-- Pull-based streaming: the population of direction `q` arriving at `x`
was at `src = (x - E[q] + n) % n` before the step. -/
def pull (n : ℕ) (f : DistState n) (q : Fin 19) (x : Cell n) : ℝ :=
  f q (x - eCell n q)

/-- Density: `rho = Σ_q f[q]` (of the pulled populations). -/
noncomputable def rho (n : ℕ) (f : DistState n) (x : Cell n) : ℝ :=
  ∑ q : Fin 19, pull n f q x

/-- Velocity before buoyancy: direction-weighted sum divided by
`max(rho, 0.001)`. -/
noncomputable def macroVel (n : ℕ) (f : DistState n) (x : Cell n) : ℝ × ℝ × ℝ :=
  ((∑ q : Fin 19, pull n f q x * ((E q).1 : ℝ)) / max (rho n f x) 0.001,
   (∑ q : Fin 19, pull n f q x * ((E q).2.1 : ℝ)) / max (rho n f x) 0.001,
   (∑ q : Fin 19, pull n f q x * ((E q).2.2 : ℝ)) / max (rho n f x) 0.001)

/-- `vel.y += params.buoyancy * t`. -/
def velWithBuoyancy (buoyancy t : ℝ) (v : ℝ × ℝ × ℝ) : ℝ × ℝ × ℝ :=
  (v.1, v.2.1 + buoyancy * t, v.2.2)

/-- WGSL `length(vel)`. -/
noncomputable def speedOf (v : ℝ × ℝ × ℝ) : ℝ :=
  Real.sqrt (v.1 * v.1 + v.2.1 * v.2.1 + v.2.2 * v.2.2)

/-- The stability clamp: `if (speed > 0.15) vel *= 0.15 / speed`. -/
noncomputable def clampVel (v : ℝ × ℝ × ℝ) : ℝ × ℝ × ℝ :=
  if speedOf v > 0.15 then
    (v.1 * (0.15 / speedOf v), v.2.1 * (0.15 / speedOf v), v.2.2 * (0.15 / speedOf v))
  else v

/-- The velocity the kernel exports and feeds into the equilibrium: after
the buoyancy increment and the stability clamp. -/
noncomputable def cellVel (n : ℕ) (buoyancy : ℝ) (tmp : Cell n → ℝ)
    (f : DistState n) (x : Cell n) : ℝ × ℝ × ℝ :=
  clampVel (velWithBuoyancy buoyancy (tmp x) (macroVel n f x))

/-- One fused streaming + collision dispatch:
`dist[q*N + idx] = f[q] + (feq - f[q]) / tau`. -/
noncomputable def step (n : ℕ) (tau buoyancy : ℝ) (tmp : Cell n → ℝ)
    (f : DistState n) : DistState n :=
  fun q x =>
    pull n f q x +
      (equilibrium q (rho n f x) (cellVel n buoyancy tmp f x) - pull n f q x) / tau

/-- Total density: the sum over all cells and all 19 directions. -/
noncomputable def totalDensity (n : ℕ) [NeZero n] (f : DistState n) : ℝ :=
  ∑ x : Cell n, ∑ q : Fin 19, f q x

/-- The 19 equilibrium values sum to the density, for every velocity. -/
theorem sum_equilibrium (r : ℝ) (u : ℝ × ℝ × ℝ) :
    ∑ q : Fin 19, equilibrium q r u = r := by
  simp only [equilibrium, E, W, INV_CS2, INV_2CS4, INV_2CS2, Fin.sum_univ_succ,
    Finset.univ_unique, Fin.default_eq_zero, Finset.sum_singleton, Matrix.cons_val_zero,
    Matrix.cons_val_succ, Fin.succ_zero_eq_one]
  push_cast
  ring

/-- Pull-based toroidal streaming permutes each population over the grid. -/
theorem sum_pull (n : ℕ) [NeZero n] (f : DistState n) (q : Fin 19) :
    ∑ x : Cell n, pull n f q x = ∑ x : Cell n, f q x :=
  Fintype.sum_equiv (Equiv.subRight (eCell n q))
    (fun x => pull n f q x) (f q) (fun _ => rfl)

/-- BGK relaxation preserves each cell's population sum. -/
theorem sum_step_cell (n : ℕ) (tau buoyancy : ℝ) (tmp : Cell n → ℝ)
    (f : DistState n) (x : Cell n) :
    ∑ q : Fin 19, step n tau buoyancy tmp f q x = ∑ q : Fin 19, pull n f q x := by
  unfold step
  rw [Finset.sum_add_distrib, ← Finset.sum_div, Finset.sum_sub_distrib,
    sum_equilibrium]
  rw [show ∑ q : Fin 19, pull n f q x = rho n f x from rfl]
  rw [sub_self, zero_div, add_zero]

end LBM

/-- **C5** [confirmed].  In the LBM kernel with zero buoyancy (heat
injection lives in the separate temperature pass), total density is
conserved exactly by every fused streaming-plus-collision step, for every
distribution state and every nonzero relaxation time `tau`: streaming
permutes each population over the torus, and BGK relaxation preserves each
cell's sum because the 19 equilibrium values sum to the cell's density. -/
theorem c5_lbm_mass_conservation (n : ℕ) [NeZero n] (tau buoyancy : ℝ)
    (htau : tau ≠ 0) (hbuoyancy : buoyancy = 0) (tmp : LBM.Cell n → ℝ)
    (f : LBM.DistState n) :
    LBM.totalDensity n (LBM.step n tau buoyancy tmp f) = LBM.totalDensity n f := by
  unfold LBM.totalDensity
  calc ∑ x : LBM.Cell n, ∑ q : Fin 19, LBM.step n tau buoyancy tmp f q x
      = ∑ x : LBM.Cell n, ∑ q : Fin 19, LBM.pull n f q x :=
        Finset.sum_congr rfl (fun x _ => LBM.sum_step_cell n tau buoyancy tmp f x)
    _ = ∑ q : Fin 19, ∑ x : LBM.Cell n, LBM.pull n f q x := Finset.sum_comm
    _ = ∑ q : Fin 19, ∑ x : LBM.Cell n, f q x :=
        Finset.sum_congr rfl (fun q _ => LBM.sum_pull n f q)
    _ = ∑ x : LBM.Cell n, ∑ q : Fin 19, f q x := Finset.sum_comm

/-- Witness for C5: on the `1³` torus with `tau = 2`, zero buoyancy, zero
temperature and unit populations, one step conserves total density. -/
theorem c5_lbm_mass_conservation_witness :
    LBM.totalDensity 1 (LBM.step 1 2 0 (fun _ => 0) (fun _ _ => 1)) =
      LBM.totalDensity 1 (fun _ _ => (1 : ℝ)) :=
  c5_lbm_mass_conservation 1 2 0 two_ne_zero rfl (fun _ => 0) (fun _ _ => 1)

/-- Rescaling a vector rescales its length by the absolute factor. -/
theorem lbm_speedOf_scale (v : ℝ × ℝ × ℝ) (c : ℝ) :
    LBM.speedOf (v.1 * c, v.2.1 * c, v.2.2 * c) = |c| * LBM.speedOf v := by
  unfold LBM.speedOf
  rw [show v.1 * c * (v.1 * c) + v.2.1 * c * (v.2.1 * c) + v.2.2 * c * (v.2.2 * c)
      = c ^ 2 * (v.1 * v.1 + v.2.1 * v.2.1 + v.2.2 * v.2.2) from by ring,
    Real.sqrt_mul (sq_nonneg c), Real.sqrt_sq_eq_abs]

/-- The clamp caps the speed at 0.15. -/
theorem lbm_speed_clampVel_le (v : ℝ × ℝ × ℝ) :
    LBM.speedOf (LBM.clampVel v) ≤ 0.15 := by
  unfold LBM.clampVel
  split
  · rename_i hgt
    have hpos : (0 : ℝ) < LBM.speedOf v := lt_trans (by norm_num) hgt
    rw [lbm_speedOf_scale v (0.15 / LBM.speedOf v),
      abs_of_pos (div_pos (by norm_num) hpos), div_mul_cancel₀ _ (ne_of_gt hpos)]
  · exact le_of_not_lt (by assumption)

/-- **C6** [confirmed].  For every cell, every distribution state and every
step, the velocity written to the macroscopic field — after the buoyancy
increment and the stability clamp — has magnitude at most 0.15, and the
division by density is guarded: its divisor `max(rho, 0.001)` is at least
0.001 (in particular nonzero). -/
theorem c6_lbm_velocity_clamped (n : ℕ) (buoyancy : ℝ) (tmp : LBM.Cell n → ℝ)
    (f : LBM.DistState n) (x : LBM.Cell n) :
    LBM.speedOf (LBM.cellVel n buoyancy tmp f x) ≤ 0.15 ∧
      (0.001 : ℝ) ≤ max (LBM.rho n f x) 0.001 ∧ max (LBM.rho n f x) 0.001 ≠ 0 :=
  ⟨lbm_speed_clampVel_le _, le_max_right _ _,
   ne_of_gt (lt_of_lt_of_le (by norm_num) (le_max_right _ _))⟩

end Spec2Proof
